import Mathlib

/-!
Verification of `extra/miniply-perf.cpp` (ssh4net/miniply): a shallow
embedding of the mesh-extraction pipeline (`parse_file_with_miniply`),
the `TriMesh` validity check (`all_indices_valid`) and the batch
benchmark harness (`main`, `has_extension`).

The low-level PLY decoder (the `miniply` library, the spec's "Record
Source") is not part of the sources being verified; following the spec's
§6 capability list, a decoded file is modelled as a list of elements,
each carrying its name, row count and the property data the pipeline
asks the reader for.  Attribute payloads (positions, normals, ...) are
carried opaquely as integers: the pipeline only copies them.
-/

namespace MiniplyPerf

/-- Topology enum from the source (`Soup`, `Strip`, `Fan`). -/
inductive Topology where
  | Soup
  | Strip
  | Fan
deriving DecidableEq, Repr

/-- Modelled from the spec: one decoded element of the Record Source.
`name` is the element name tested by `element_is`; `rows` is
`num_rows()`; `loadOk` is the result of `load_element()`;
`pos`/`normal`/`uv`/`color` are the flat attribute buffers that
`find_pos`/`find_normal`/`find_texcoord`/`find_color_rgba` followed by
`extract_properties` would produce (`none` when the discovery call
fails); `vertex_indices` is the variable-length index-list property
(`none` when the element has no such property). -/
structure Element where
  name : String
  rows : Nat
  loadOk : Bool
  pos : Option (List Int)
  normal : Option (List Int)
  uv : Option (List Int)
  color : Option (List Int)
  vertex_indices : Option (List (List Int))
deriving DecidableEq, Repr

/-- Modelled from the spec: a decoded PLY file.  `valid` is
`PLYReader::valid()`; `elements` is the element sequence iterated by
`has_element` / `next_element`. -/
structure PLYFile where
  valid : Bool
  elements : List Element
deriving DecidableEq, Repr

/-- The `TriMesh` struct populated by the pipeline.  Buffers are lists;
`indices.length` plays the role of `numIndices` (the data actually
written into the index buffer). -/
structure TriMesh where
  pos : List Int
  normal : Option (List Int)
  uv : Option (List Int)
  color : Option (List Int)
  numVerts : Nat
  indices : List Int
  topology : Topology
  hasTerminator : Bool
  terminator : Int
deriving DecidableEq, Repr

/-- The freshly constructed `TriMesh` (`new TriMesh()` with the field
initialisers from the struct declaration). -/
def initMesh : TriMesh :=
  ⟨[], none, none, none, 0, [], Topology.Soup, false, -1⟩

/-- The `checkTerminator` local of `TriMesh::all_indices_valid` (source
line 109): the terminator is only honoured when topology is not `Soup`,
`hasTerminator` is set, and the terminator itself lies outside the
valid vertex range. -/
def TriMesh.checkTerminator (m : TriMesh) : Bool :=
  decide (m.topology ≠ Topology.Soup) && m.hasTerminator &&
    (decide (m.terminator < 0) || decide ((m.numVerts : Int) ≤ m.terminator))

/-- `TriMesh::all_indices_valid` from the source: an index equal to the
honoured terminator is skipped; every other index must satisfy
`0 <= i < numVerts`. -/
def TriMesh.all_indices_valid (m : TriMesh) : Bool :=
  m.indices.all fun i =>
    (m.checkTerminator && decide (i = m.terminator)) ||
      (decide (0 ≤ i) && decide (i < (m.numVerts : Int)))

/-- Modelled from the spec: `find_element` scans the header for the
first element with the given name (`kPLYFaceElement` is `"face"`,
`kPLYVertexElement` is `"vertex"`). -/
def findElement (f : PLYFile) (n : String) : Option Element :=
  f.elements.find? fun e => e.name = n

/-- Modelled from the spec: `convert_list_to_fixed_size(find_property
("vertex_indices"), 3, faceIdxs)` — coerce the variable-length list
property to fixed width 3, failing if the property is absent or some
row's length is not 3. -/
def convert_list_to_fixed_size3 (e : Element) : Bool :=
  match e.vertex_indices with
  | none => false
  | some rs => rs.all fun r => r.length = 3

/-- Modelled from the spec: `requires_triangulation` — some row is a
polygon with more than 3 vertices. -/
def requires_triangulation (rs : List (List Int)) : Bool :=
  rs.any fun r => 3 < r.length

/-- Fan decomposition of one polygon row from its first vertex:
`(v0, r i, r (i+1))` for consecutive pairs of the remaining vertices. -/
def fanRowAux (v0 : Int) : List Int → List Int
  | a :: b :: rest => v0 :: a :: b :: fanRowAux v0 (b :: rest)
  | _ => []

/-- Fan-triangulate one index-list row. -/
def fanRow : List Int → List Int
  | [] => []
  | v0 :: rest => fanRowAux v0 rest

/-- Modelled from the spec: `extract_triangles` — triangulate every row
by fan decomposition and concatenate the resulting triangles. -/
def extract_triangles (rs : List (List Int)) : List Int :=
  (rs.map fanRow).flatten

/-- Modelled from the spec: `extract_list_property` — concatenate the
variable-length rows into one flat buffer. -/
def extract_list_property (rs : List (List Int)) : List Int :=
  rs.flatten

/-- Modelled from the spec: `sum_of_list_counts` — the sum of the row
lengths of a list property. -/
def sum_of_list_counts (rs : List (List Int)) : Nat :=
  (rs.map List.length).sum

/-- Diagnostic printed at the ordering failure (source line 181). -/
def orderingMsg : String :=
  "Error: face data needing triangulation found before vertex data.\n"

/-- Diagnostic printed when loading the tristrips element fails
(source line 199). -/
def tristripsLoadMsg : String :=
  "Error: failed to load tri strips.\n"

/-- Diagnostic printed when the tristrips element has no
`vertex_indices` property (source line 204). -/
def tristripsPropMsg : String :=
  "Error: couldn't find 'vertex_indices' property for the 'tristrips' element.\n"

/-- State threaded through the element-iteration loop: the two
completion flags, the mesh under construction and the diagnostics
emitted so far. -/
structure LoopState where
  gotVerts : Bool
  gotFaces : Bool
  mesh : TriMesh
  diags : List String
deriving DecidableEq, Repr

/-- Initial loop state (`gotVerts = gotFaces = false`, fresh mesh). -/
def initState : LoopState :=
  ⟨false, false, initMesh, []⟩

/-- Result of one loop body: continue with the next element, or `break`
out of the loop. -/
inductive StepRes where
  | cont (st : LoopState)
  | brk (st : LoopState)
deriving DecidableEq, Repr

/-- The vertex branch's mesh writes (source lines 148-162): positions
and the row count are written unconditionally; normal, uv and color are
written only when discovery succeeds, otherwise the previous buffer is
left in place. -/
def vertexMeshUpdate (e : Element) (ps : List Int) (m0 : TriMesh) : TriMesh :=
  let m1 : TriMesh := { m0 with numVerts := e.rows, pos := ps }
  let m2 := match e.normal with
    | some ns => { m1 with normal := some ns }
    | none => m1
  let m3 := match e.uv with
    | some ts => { m2 with uv := some ts }
    | none => m2
  match e.color with
  | some cs => { m3 with color := some cs }
  | none => m3

/-- One iteration of the element loop of `parse_file_with_miniply`
(source lines 143-217), for the current element `e`.  The vertex branch
has no `!gotVerts` guard; the face and tristrips branches are guarded by
`!gotFaces`.  `break` happens on load failure, missing position data,
missing index property, or the ordering error. -/
def stepElement (assumeTriangles : Bool) (st : LoopState) (e : Element) : StepRes :=
  if e.name = "vertex" then
    match e.pos with
    | none => StepRes.brk st
    | some ps =>
      if e.loadOk then
        StepRes.cont { st with gotVerts := true,
                               mesh := vertexMeshUpdate e ps st.mesh }
      else StepRes.brk st
  else if !st.gotFaces && e.name = "face" then
    if e.loadOk then
      if assumeTriangles then
        let m := { st.mesh with
          indices := extract_list_property (e.vertex_indices.getD []) }
        StepRes.cont { st with gotFaces := true, mesh := m }
      else
        match e.vertex_indices with
        | none => StepRes.brk st
        | some rs =>
          if requires_triangulation rs && !st.gotVerts then
            StepRes.brk { st with diags := st.diags ++ [orderingMsg] }
          else if requires_triangulation rs then
            let m := { st.mesh with indices := extract_triangles rs }
            StepRes.cont { st with gotFaces := true, mesh := m }
          else
            let m := { st.mesh with indices := extract_list_property rs }
            StepRes.cont { st with gotFaces := true, mesh := m }
    else StepRes.brk st
  else if !st.gotFaces && e.name = "tristrips" then
    if e.loadOk then
      match e.vertex_indices with
      | none => StepRes.brk { st with diags := st.diags ++ [tristripsPropMsg] }
      | some rs =>
        let m := { st.mesh with
          indices := extract_list_property rs,
          topology := Topology.Strip,
          hasTerminator := true,
          terminator := -1 }
        StepRes.cont { st with gotFaces := true, mesh := m }
    else StepRes.brk { st with diags := st.diags ++ [tristripsLoadMsg] }
  else
    StepRes.cont st

/-- The element-iteration loop: `while (reader.has_element() &&
(!gotVerts || !gotFaces)) { ...body...; reader.next_element(); }`. -/
def runLoop (assumeTriangles : Bool) (st : LoopState) : List Element → LoopState
  | [] => st
  | e :: es =>
    if st.gotVerts && st.gotFaces then st
    else
      match stepElement assumeTriangles st e with
      | StepRes.brk st' => st'
      | StepRes.cont st' => runLoop assumeTriangles st' es

/-- The fast-path preamble (source lines 131-137): when
`assumeTriangles` is requested, look up the face element — `none` here
models the immediate `return nullptr` when it is absent — and demote
the flag to the result of the fixed-size-3 coercion. -/
def effectiveAssume (f : PLYFile) (assumeTriangles : Bool) : Option Bool :=
  if assumeTriangles then
    (findElement f "face").map convert_list_to_fixed_size3
  else some false

/-- The final gate (source lines 220-225): reject the mesh unless both
elements were found and every index is valid. -/
def finishParse (st : LoopState) : Option TriMesh × List String :=
  if !st.gotVerts || !st.gotFaces || !st.mesh.all_indices_valid then
    (none, st.diags)
  else
    (some st.mesh, st.diags)

/-- `parse_file_with_miniply` — returns the mesh (or `none` on failure)
together with the diagnostics written to the side channel.  If the
reader is invalid the function fails at once; if `assumeTriangles` is
requested and there is no face element at all, it returns `nullptr`
immediately (source lines 133-135); otherwise `assumeTriangles` is
demoted to the result of the fixed-size-3 coercion, the loop runs, and
the final gate rejects the mesh unless both elements were found and all
indices are valid. -/
def parse_file_with_miniply (f : PLYFile) (assumeTriangles : Bool) :
    Option TriMesh × List String :=
  if f.valid then
    match effectiveAssume f assumeTriangles with
    | none => (none, [])
    | some at2 => finishParse (runLoop at2 initState f.elements)
  else (none, [])

/-!
Batch benchmark harness (`main`, source lines 240-333).  File contents
are modelled by two environments: `tfs` maps a list-file name to the
sequence of chunks `fgets` returns for it (`none` when `fopen` fails),
and `fs` maps a mesh filename to its decoded `PLYFile` (an unreadable
file is a `PLYFile` with `valid = false`).
-/

/-- Trailing-newline stripping, working on the reversed character list:
`while (s.back() == '\n') s.pop_back();`.  Calling `back()` on an empty
string is undefined behaviour in C++ and is modelled as `none`. -/
def stripRev : List Char → Option (List Char)
  | [] => none
  | c :: rest =>
    if c = '\n' then stripRev rest else some (c :: rest)

/-- Process one line read from a list file: push it, then strip trailing
newlines from the back (source lines 263-266).  `none` marks the
undefined `back()`-on-empty read. -/
def stripLine (s : String) : Option String :=
  (stripRev s.data.reverse).map fun cs => String.mk cs.reverse

/-- `has_extension` from the source: the filename must be strictly
longer than the extension, have a dot just before the candidate suffix,
and end with the extension exactly. -/
def has_extension (filename ext : String) : Bool :=
  let j := ext.data.length
  let f := filename.data
  if f.length ≤ j then false
  else
    decide (f.get? (f.length - j - 1) = some '.') &&
      decide (f.drop (f.length - j) = ext.data)

/-- Test `argv[i][0] == '-'` (an empty argument's first byte is the NUL
terminator, which is not a dash). -/
def isDashArg (a : String) : Bool :=
  match a.data with
  | '-' :: _ => true
  | _ => false

/-- The `--assume-triangles` flag scan (source lines 246-252): the flag
is set when any argument equals the literal, and applies globally. -/
def assumeTrianglesFlag (args : List String) : Bool :=
  args.any fun a => a = "--assume-triangles"

/-- Strip every chunk of a list file; `none` as soon as one line hits
the undefined empty-string read. -/
def stripAll : List String → Option (List String)
  | [] => some []
  | l :: ls =>
    match stripLine l, stripAll ls with
    | some s, some ss => some (s :: ss)
    | _, _ => none

/-- Filename resolution (source lines 254-277): dash arguments are
skipped; an argument with the `txt` extension is opened as a list file
and its stripped lines appended (an unopenable list file emits a
diagnostic and is skipped); any other argument is a direct filename.
Returns the resolved filenames and the diagnostics, or `none` when the
stripping loop hits undefined behaviour. -/
def resolveInputs (tfs : String → Option (List String)) :
    List String → Option (List String × List String)
  | [] => some ([], [])
  | a :: rest =>
    if isDashArg a then resolveInputs tfs rest
    else if has_extension a "txt" then
      match tfs a with
      | some lines =>
        match stripAll lines, resolveInputs tfs rest with
        | some fsNames, some (more, ds) => some (fsNames ++ more, ds)
        | _, _ => none
      | none =>
        (resolveInputs tfs rest).map fun p =>
          (p.1, ("Failed to open " ++ a ++ "\n") :: p.2)
    else
      (resolveInputs tfs rest).map fun p => (a :: p.1, p.2)

/-- Whether extraction of one file passes: `trimesh != nullptr`. -/
def fileOk (fs : String → PLYFile) (assumeTriangles : Bool) (n : String) : Bool :=
  (parse_file_with_miniply (fs n) assumeTriangles).1.isSome

/-- The per-file benchmark loop (source lines 295-325): one report line
`(filename, passed?)` per file in order, plus the pass and fail
tallies. -/
def runBatch (fs : String → PLYFile) (assumeTriangles : Bool) :
    List String → List (String × Bool) × Nat × Nat
  | [] => ([], 0, 0)
  | n :: rest =>
    let ok := fileOk fs assumeTriangles n
    let r := runBatch fs assumeTriangles rest
    ((n, ok) :: r.1, if ok then r.2.1 + 1 else r.2.1,
      if ok then r.2.2 else r.2.2 + 1)

/-- Whole-process model of `main`: resolve inputs, run the batch with
the global flag, and compute the exit status (source lines 279-282 and
332: an empty resolved list exits successfully at once; otherwise the
exit status is failure exactly when at least one file failed).  The
result is `(report, numPassed, numFailed, exitCode)`, or `none` when
input resolution hits undefined behaviour. -/
def mainModel (tfs : String → Option (List String)) (fs : String → PLYFile)
    (args : List String) : Option (List (String × Bool) × Nat × Nat × Nat) :=
  match resolveInputs tfs args with
  | none => none
  | some (files, _) =>
    if files.isEmpty then some ([], 0, 0, 0)
    else
      let r := runBatch fs (assumeTrianglesFlag args) files
      some (r.1, r.2.1, r.2.2, if 0 < r.2.2 then 1 else 0)

/-!
Concrete sample inputs used by witnesses and counterexamples.
-/

/-- A well-formed vertex element with three vertices and positions only. -/
def vtxA : Element :=
  ⟨"vertex", 3, true, some [0, 0, 0, 1, 0, 0, 0, 1, 0], none, none, none, none⟩

/-- A second vertex element with different position data. -/
def vtxB : Element :=
  ⟨"vertex", 3, true, some [5, 5, 5, 6, 5, 5, 5, 6, 5], none, none, none, none⟩

/-- A vertex element with four vertices. -/
def vtx4 : Element :=
  ⟨"vertex", 4, true, some [0, 0, 0, 1, 0, 0, 1, 1, 0, 0, 1, 0], none, none, none, none⟩

/-- A face element holding a single triangle row. -/
def faceTri : Element :=
  ⟨"face", 1, true, none, none, none, none, some [[0, 1, 2]]⟩

/-- A face element holding a single quad row (requires triangulation). -/
def facePoly : Element :=
  ⟨"face", 1, true, none, none, none, none, some [[0, 1, 2, 3]]⟩

/-- A tristrips element with one strip of three indices. -/
def tsElem : Element :=
  ⟨"tristrips", 1, true, none, none, none, none, some [[0, 1, 2]]⟩

/-- Vertex element followed by a tristrips element; no face element. -/
def fileVertTs : PLYFile := ⟨true, [vtxA, tsElem]⟩

/-- Two vertex elements followed by a face element. -/
def fileTwoVerts : PLYFile := ⟨true, [vtxA, vtxB, faceTri]⟩

/-- Tristrips first, then a quad face element, then vertices. -/
def fileTsFaceVert : PLYFile := ⟨true, [tsElem, facePoly, vtx4]⟩

/-- A quad face element before any vertex element. -/
def fileFaceFirst : PLYFile := ⟨true, [facePoly, vtx4]⟩

/-- Vertices before a quad face element. -/
def fileVertQuad : PLYFile := ⟨true, [vtx4, facePoly]⟩

/-- A plain well-formed triangle-mesh file. -/
def fileGood : PLYFile := ⟨true, [vtxA, faceTri]⟩

/-- A file the reader cannot decode at all. -/
def fileBad : PLYFile := ⟨false, []⟩

/-- The mesh extracted from `fileGood`. -/
def meshGood : TriMesh :=
  ⟨[0, 0, 0, 1, 0, 0, 0, 1, 0], none, none, none, 3, [0, 1, 2],
    Topology.Soup, false, -1⟩

/-- The mesh extracted from `fileVertTs` (strip topology). -/
def meshStrip : TriMesh :=
  ⟨[0, 0, 0, 1, 0, 0, 0, 1, 0], none, none, none, 3, [0, 1, 2],
    Topology.Strip, true, -1⟩

/-- A list-file environment with one list file whose middle line is
empty (just a newline). -/
def tfsEmptyLine : String → Option (List String) :=
  fun s => if s = "files.txt" then some ["a.ply\n", "\n", "b.ply\n"] else none

/-- A list-file environment in which no list file can be opened. -/
def tfsNone : String → Option (List String) :=
  fun _ => none

/-- A mesh-file environment: `good.ply` decodes to `fileGood`, anything
else is unreadable. -/
def fsGoodBad : String → PLYFile :=
  fun n => if n = "good.ply" then fileGood else fileBad

/-- Command line with one good and one bad file. -/
def argsGoodBad : List String := ["good.ply", "bad.ply"]

/-- Command line with an unrecognised dash argument, the fast-path flag
and one filename. -/
def argsDash : List String := ["-x", "--assume-triangles", "good.ply"]

/-- Underlying state of a step result, whether it continued or broke. -/
def StepRes.state : StepRes → LoopState
  | StepRes.cont st => st
  | StepRes.brk st => st

/-!
Lemma layer: facts about single loop steps, the loop, and the gate.
-/

/-- The vertex-branch mesh update only writes per-vertex fields: the
positions and row count are overwritten and the per-index fields are
untouched. -/
theorem vertexMeshUpdate_fields (e : Element) (ps : List Int) (m0 : TriMesh) :
    (vertexMeshUpdate e ps m0).pos = ps ∧
    (vertexMeshUpdate e ps m0).numVerts = e.rows ∧
    (vertexMeshUpdate e ps m0).indices = m0.indices ∧
    (vertexMeshUpdate e ps m0).topology = m0.topology ∧
    (vertexMeshUpdate e ps m0).hasTerminator = m0.hasTerminator ∧
    (vertexMeshUpdate e ps m0).terminator = m0.terminator := by
  unfold vertexMeshUpdate
  cases e.normal <;> cases e.uv <;> cases e.color <;>
    exact ⟨rfl, rfl, rfl, rfl, rfl, rfl⟩

/-- Once both completion flags are set, the loop returns immediately. -/
theorem runLoop_stop (a : Bool) (st : LoopState) (es : List Element)
    (hv : st.gotVerts = true) (hf : st.gotFaces = true) :
    runLoop a st es = st := by
  cases es with
  | nil => rfl
  | cons e es => simp [runLoop, hv, hf]

/-- Every `break` in the loop body happens before any field of the mesh
or either completion flag is written; only diagnostics may change. -/
theorem stepElement_brk_inv (a : Bool) (st : LoopState) (e : Element)
    (st' : LoopState) (h : stepElement a st e = StepRes.brk st') :
    st'.gotVerts = st.gotVerts ∧ st'.gotFaces = st.gotFaces ∧
      st'.mesh = st.mesh := by
  unfold stepElement at h
  split at h
  · split at h
    · cases h; exact ⟨rfl, rfl, rfl⟩
    · split at h
      · cases h
      · cases h; exact ⟨rfl, rfl, rfl⟩
  · split at h
    · split at h
      · split at h
        · cases h
        · split at h
          · cases h; exact ⟨rfl, rfl, rfl⟩
          · split at h
            · cases h; exact ⟨rfl, rfl, rfl⟩
            · split at h
              · cases h
              · cases h
      · cases h; exact ⟨rfl, rfl, rfl⟩
    · split at h
      · split at h
        · split at h
          · cases h; exact ⟨rfl, rfl, rfl⟩
          · cases h
        · cases h; exact ⟨rfl, rfl, rfl⟩
      · cases h

/-- A step on an element whose name is not the vertex element's
well-known name leaves `gotVerts` unchanged. -/
theorem stepElement_gotVerts_of_ne (a : Bool) (st : LoopState) (e : Element)
    (h : ¬ e.name = "vertex") :
    ((stepElement a st e).state).gotVerts = st.gotVerts := by
  unfold stepElement
  rw [if_neg h]
  repeat' split
  all_goals rfl

/-- A step on an element named neither `face` nor `tristrips` leaves
`gotFaces` unchanged. -/
theorem stepElement_gotFaces_of_ne (a : Bool) (st : LoopState) (e : Element)
    (h2 : ¬ e.name = "face") (h3 : ¬ e.name = "tristrips") :
    ((stepElement a st e).state).gotFaces = st.gotFaces := by
  unfold stepElement
  simp only [h2, h3, decide_False, Bool.and_false, Bool.false_and, if_false]
  repeat' split
  all_goals simp_all [StepRes.state]

/-- An element matching none of the three recognised names is skipped
without any effect. -/
theorem stepElement_skip (a : Bool) (st : LoopState) (e : Element)
    (h1 : ¬ e.name = "vertex") (h2 : ¬ e.name = "face")
    (h3 : ¬ e.name = "tristrips") :
    stepElement a st e = StepRes.cont st := by
  unfold stepElement
  simp [h1, h2, h3]

/-- Once `gotFaces` is set, a step never changes the flag, the
per-index mesh fields, or the diagnostics (the face and tristrips
branches are guarded by `!gotFaces`; the vertex branch only writes
per-vertex fields). -/
theorem stepElement_after_faces (a : Bool) (st : LoopState) (e : Element)
    (hf : st.gotFaces = true) :
    ((stepElement a st e).state).gotFaces = true ∧
    ((stepElement a st e).state).mesh.indices = st.mesh.indices ∧
    ((stepElement a st e).state).mesh.topology = st.mesh.topology ∧
    ((stepElement a st e).state).mesh.hasTerminator = st.mesh.hasTerminator ∧
    ((stepElement a st e).state).mesh.terminator = st.mesh.terminator ∧
    ((stepElement a st e).state).diags = st.diags := by
  unfold stepElement
  simp only [hf, Bool.not_true, Bool.false_and, if_false]
  repeat' split
  all_goals simp_all [StepRes.state, vertexMeshUpdate_fields]

/-- A successful step on a vertex element: the loop continues with
`gotVerts` set, the position buffer and row count overwritten from the
element, and the per-index fields and diagnostics untouched. -/
theorem stepElement_vertex (a : Bool) (st : LoopState) (e : Element) (ps : List Int)
    (hn : e.name = "vertex") (hp : e.pos = some ps) (hl : e.loadOk = true) :
    ∃ st', stepElement a st e = StepRes.cont st' ∧
      st'.gotVerts = true ∧ st'.gotFaces = st.gotFaces ∧
      st'.mesh.pos = ps ∧ st'.mesh.numVerts = e.rows ∧
      st'.mesh.indices = st.mesh.indices ∧
      st'.mesh.topology = st.mesh.topology ∧
      st'.mesh.hasTerminator = st.mesh.hasTerminator ∧
      st'.mesh.terminator = st.mesh.terminator ∧
      st'.diags = st.diags := by
  unfold stepElement
  rw [if_pos hn, hp]
  simp only [hl, if_true]
  obtain ⟨f1, f2, f3, f4, f5, f6⟩ := vertexMeshUpdate_fields e ps st.mesh
  exact ⟨_, rfl, rfl, rfl, f1, f2, f3, f4, f5, f6, rfl⟩

/-- A failing step on a vertex element (load failure or missing
positions) breaks out of the loop without touching the state. -/
theorem stepElement_vertex_brk (a : Bool) (st : LoopState) (e : Element)
    (hn : e.name = "vertex") (h : e.pos = none ∨ e.loadOk = false) :
    stepElement a st e = StepRes.brk st := by
  unfold stepElement
  rw [if_pos hn]
  rcases h with h | h
  · rw [h]
  · cases hp : e.pos <;> simp [h]

/-- A step on a face element, reached with `gotFaces` still unset,
either breaks (leaving `gotFaces` unset) or continues with `gotFaces`
set and the per-vertex fields untouched. -/
theorem stepElement_face_after_verts (a : Bool) (st : LoopState) (e : Element)
    (hn : e.name = "face") (hgf : st.gotFaces = false) :
    (∃ st'', stepElement a st e = StepRes.brk st'' ∧ st''.gotFaces = false) ∨
    (∃ st', stepElement a st e = StepRes.cont st' ∧
      st'.gotVerts = st.gotVerts ∧ st'.gotFaces = true ∧
      st'.mesh.pos = st.mesh.pos ∧ st'.mesh.numVerts = st.mesh.numVerts) := by
  have hnv : ¬ e.name = "vertex" := by simp [hn]
  unfold stepElement
  rw [if_neg hnv]
  simp only [hn, hgf, Bool.not_false, Bool.true_and, decide_True, Bool.and_true, if_true]
  cases hl : e.loadOk with
  | false =>
    left
    exact ⟨st, by simp, hgf⟩
  | true =>
    simp only [if_true]
    cases a with
    | true => right; exact ⟨_, rfl, rfl, rfl, rfl, rfl⟩
    | false =>
      simp only [Bool.false_eq_true, if_false]
      cases hidx : e.vertex_indices with
      | none => left; exact ⟨st, rfl, hgf⟩
      | some rs =>
        dsimp only
        by_cases hcond : (requires_triangulation rs && !st.gotVerts) = true
        · rw [if_pos hcond]
          left
          exact ⟨_, rfl, rfl⟩
        · rw [if_neg hcond]
          by_cases hpoly : requires_triangulation rs = true
          · rw [if_pos hpoly]
            right; exact ⟨_, rfl, rfl, rfl, rfl, rfl⟩
          · rw [if_neg hpoly]
            right; exact ⟨_, rfl, rfl, rfl, rfl, rfl⟩

/-- The ordering failure: a face element needing triangulation, with no
vertex data yet, under general (non-fast-path) handling, breaks with
the ordering diagnostic appended. -/
theorem stepElement_face_ordering (st : LoopState) (e : Element)
    (rs : List (List Int)) (hn : e.name = "face") (hl : e.loadOk = true)
    (hidx : e.vertex_indices = some rs)
    (hpoly : requires_triangulation rs = true)
    (hgf : st.gotFaces = false) (hgv : st.gotVerts = false) :
    stepElement false st e =
      StepRes.brk { st with diags := st.diags ++ [orderingMsg] } := by
  have hnv : ¬ e.name = "vertex" := by simp [hn]
  unfold stepElement
  rw [if_neg hnv]
  simp [hn, hgf, hl, hidx, hpoly, hgv]

/-- A face element whose lists do not need triangulation, reached with
`gotFaces` unset, always continues with `gotFaces` set and no new
diagnostics (under either value of the fast-path flag). -/
theorem stepElement_face_no_poly (a : Bool) (st : LoopState) (e : Element)
    (rs : List (List Int)) (hn : e.name = "face") (hl : e.loadOk = true)
    (hidx : e.vertex_indices = some rs)
    (hpoly : requires_triangulation rs = false) (hgf : st.gotFaces = false) :
    ∃ st', stepElement a st e = StepRes.cont st' ∧
      st'.gotFaces = true ∧ st'.diags = st.diags := by
  have hnv : ¬ e.name = "vertex" := by simp [hn]
  unfold stepElement
  rw [if_neg hnv]
  simp only [hn, hgf, Bool.not_false, Bool.true_and, decide_True, Bool.and_true,
    if_true, hl]
  cases a with
  | true => exact ⟨_, rfl, rfl, rfl⟩
  | false =>
    simp only [Bool.false_eq_true, if_false, hidx, hpoly, Bool.false_and,
      Bool.and_false]
    exact ⟨_, rfl, rfl, rfl⟩

/-- A successful step on a tristrips element: the loop continues with
`gotFaces` set, strip topology, the sentinel terminator, and the
flattened index lists. -/
theorem stepElement_tristrips (a : Bool) (st : LoopState) (e : Element)
    (rs : List (List Int)) (hn : e.name = "tristrips") (hl : e.loadOk = true)
    (hidx : e.vertex_indices = some rs) (hgf : st.gotFaces = false) :
    ∃ st', stepElement a st e = StepRes.cont st' ∧ st'.gotFaces = true ∧
      st'.mesh.indices = extract_list_property rs ∧
      st'.mesh.topology = Topology.Strip ∧
      st'.mesh.hasTerminator = true ∧ st'.mesh.terminator = -1 := by
  have hnv : ¬ e.name = "vertex" := by simp [hn]
  have hnf : ¬ e.name = "face" := by simp [hn]
  unfold stepElement
  rw [if_neg hnv]
  simp only [hnf, decide_False, Bool.and_false, if_false, hn, hgf,
    Bool.not_false, Bool.true_and, decide_True, Bool.and_true, if_true, hl, hidx]
  exact ⟨_, rfl, rfl, rfl, rfl, rfl, rfl⟩

/-- A tristrips element whose load fails still breaks out of the loop
(with a diagnostic and `gotFaces` unset). -/
theorem stepElement_tristrips_brk (a : Bool) (st : LoopState) (e : Element)
    (hn : e.name = "tristrips") (hl : e.loadOk = false) (hgf : st.gotFaces = false) :
    ∃ st'', stepElement a st e = StepRes.brk st'' := by
  have hnv : ¬ e.name = "vertex" := by simp [hn]
  have hnf : ¬ e.name = "face" := by simp [hn]
  unfold stepElement
  rw [if_neg hnv]
  simp only [hnf, decide_False, Bool.and_false, if_false, hn, hgf,
    Bool.not_false, Bool.true_and, decide_True, Bool.and_true, if_true, hl]
  exact ⟨_, rfl⟩

/-- The gate only ever reports the diagnostics accumulated by the loop. -/
theorem finishParse_snd (st : LoopState) : (finishParse st).2 = st.diags := by
  unfold finishParse
  split <;> rfl

/-- Inversion of the final gate on success: both flags were set, the
validity check passed, and the result is exactly the built mesh and
diagnostics. -/
theorem finishParse_some_inv (st : LoopState) (m : TriMesh) (ds : List String)
    (h : finishParse st = (some m, ds)) :
    st.gotVerts = true ∧ st.gotFaces = true ∧
      st.mesh.all_indices_valid = true ∧ m = st.mesh ∧ ds = st.diags := by
  unfold finishParse at h
  split at h
  · simp at h
  · next hc =>
    have hv : st.gotVerts = true := by
      cases hgv : st.gotVerts
      · exact absurd (by rw [hgv]; rfl) hc
      · rfl
    have hf : st.gotFaces = true := by
      cases hgf : st.gotFaces
      · exact absurd (by rw [hv, hgf]; rfl) hc
      · rfl
    have hval : st.mesh.all_indices_valid = true := by
      cases hx : st.mesh.all_indices_valid
      · exact absurd (by rw [hv, hf, hx]; rfl) hc
      · rfl
    refine ⟨hv, hf, hval, ?_, ?_⟩
    · have hm := congrArg Prod.fst h
      simpa using hm.symm
    · have hd := congrArg Prod.snd h
      simpa using hd.symm

/-- If either flag is unset the gate returns no mesh. -/
theorem finishParse_none (st : LoopState)
    (h : st.gotVerts = false ∨ st.gotFaces = false) :
    (finishParse st).1 = none := by
  unfold finishParse
  rcases h with h | h <;> simp [h]

/-- Unfolding equation for one loop iteration. -/
theorem runLoop_cons (a : Bool) (st : LoopState) (e : Element) (es : List Element) :
    runLoop a st (e :: es) =
      if st.gotVerts && st.gotFaces then st
      else match stepElement a st e with
        | StepRes.brk st' => st'
        | StepRes.cont st' => runLoop a st' es := rfl

/-- If no iterated element carries the vertex element's name, the
`gotVerts` flag never changes. -/
theorem runLoop_gotVerts_of_no_vertex (a : Bool) (es : List Element) :
    ∀ st : LoopState, (∀ e ∈ es, ¬ e.name = "vertex") →
      (runLoop a st es).gotVerts = st.gotVerts := by
  induction es with
  | nil => intro st _; rfl
  | cons e es ih =>
    intro st h
    rw [runLoop_cons]
    by_cases hg : (st.gotVerts && st.gotFaces) = true
    · rw [if_pos hg]
    · rw [if_neg hg]
      have hne := h e (List.mem_cons_self e es)
      have h1 := stepElement_gotVerts_of_ne a st e hne
      cases hstep : stepElement a st e with
      | brk st' =>
        rw [hstep] at h1
        exact h1
      | cont st' =>
        rw [hstep] at h1
        rw [ih st' fun x hx => h x (List.mem_cons_of_mem e hx)]
        exact h1

/-- If no iterated element carries a face-data name (`face` or
`tristrips`), the `gotFaces` flag never changes. -/
theorem runLoop_gotFaces_of_no_face (a : Bool) (es : List Element) :
    ∀ st : LoopState,
      (∀ e ∈ es, ¬ e.name = "face" ∧ ¬ e.name = "tristrips") →
      (runLoop a st es).gotFaces = st.gotFaces := by
  induction es with
  | nil => intro st _; rfl
  | cons e es ih =>
    intro st h
    rw [runLoop_cons]
    by_cases hg : (st.gotVerts && st.gotFaces) = true
    · rw [if_pos hg]
    · rw [if_neg hg]
      obtain ⟨h2, h3⟩ := h e (List.mem_cons_self e es)
      have h1 := stepElement_gotFaces_of_ne a st e h2 h3
      cases hstep : stepElement a st e with
      | brk st' =>
        rw [hstep] at h1
        exact h1
      | cont st' =>
        rw [hstep] at h1
        rw [ih st' fun x hx => h x (List.mem_cons_of_mem e hx)]
        exact h1

/-- Once `gotFaces` is set, the rest of the loop never changes the
flag, the per-index mesh fields, or the diagnostics. -/
theorem runLoop_after_faces (a : Bool) (es : List Element) :
    ∀ st : LoopState, st.gotFaces = true →
      (runLoop a st es).gotFaces = true ∧
      (runLoop a st es).mesh.indices = st.mesh.indices ∧
      (runLoop a st es).mesh.topology = st.mesh.topology ∧
      (runLoop a st es).mesh.hasTerminator = st.mesh.hasTerminator ∧
      (runLoop a st es).mesh.terminator = st.mesh.terminator ∧
      (runLoop a st es).diags = st.diags := by
  induction es with
  | nil => intro st hf; exact ⟨hf, rfl, rfl, rfl, rfl, rfl⟩
  | cons e es ih =>
    intro st hf
    rw [runLoop_cons]
    by_cases hg : (st.gotVerts && st.gotFaces) = true
    · rw [if_pos hg]; exact ⟨hf, rfl, rfl, rfl, rfl, rfl⟩
    · rw [if_neg hg]
      obtain ⟨p1, p2, p3, p4, p5, p6⟩ := stepElement_after_faces a st e hf
      cases hstep : stepElement a st e with
      | brk st' =>
        rw [hstep] at p1 p2 p3 p4 p5 p6
        exact ⟨p1, p2, p3, p4, p5, p6⟩
      | cont st' =>
        rw [hstep] at p1 p2 p3 p4 p5 p6
        obtain ⟨q1, q2, q3, q4, q5, q6⟩ := ih st' p1
        exact ⟨q1, q2.trans p2, q3.trans p3, q4.trans p4, q5.trans p5,
          q6.trans p6⟩

/-- A prefix of elements matching none of the three recognised names is
iterated without any effect on the state. -/
theorem runLoop_skip (a : Bool) (pre : List Element) :
    ∀ (st : LoopState) (rest : List Element),
      (∀ e ∈ pre,
        ¬ e.name = "vertex" ∧ ¬ e.name = "face" ∧ ¬ e.name = "tristrips") →
      st.gotFaces = false →
      runLoop a st (pre ++ rest) = runLoop a st rest := by
  induction pre with
  | nil => intro st rest _ _; rfl
  | cons e pre ih =>
    intro st rest h hgf
    obtain ⟨h1, h2, h3⟩ := h e (List.mem_cons_self e pre)
    rw [List.cons_append, runLoop_cons, if_neg (by simp [hgf]),
        stepElement_skip a st e h1 h2 h3]
    exact ih st rest (fun x hx => h x (List.mem_cons_of_mem e hx)) hgf

/-- `find?` hits the first matching element after a non-matching
prefix. -/
theorem find_face_prefix (pre : List Element) (fe : Element)
    (post : List Element) (hpre : ∀ e ∈ pre, ¬ e.name = "face")
    (hfe : fe.name = "face") :
    ((pre ++ fe :: post).find? fun e => e.name = "face") = some fe := by
  induction pre with
  | nil =>
    rw [List.nil_append]
    rw [List.find?_cons_of_pos _ (by simp [hfe])]
  | cons e pre ih =>
    rw [List.cons_append,
        List.find?_cons_of_neg _ (by simp [hpre e (List.mem_cons_self e pre)])]
    exact ih fun x hx => hpre x (List.mem_cons_of_mem e hx)

/-- Inversion of a successful extraction: the reader was valid and, for
the effective fast-path flag, the loop set both completion flags, built
a mesh passing the validity check, and produced exactly the returned
mesh and diagnostics. -/
theorem parse_success_inv (f : PLYFile) (b : Bool) (m : TriMesh)
    (ds : List String) (h : parse_file_with_miniply f b = (some m, ds)) :
    f.valid = true ∧
    ∃ a : Bool,
      (runLoop a initState f.elements).gotVerts = true ∧
      (runLoop a initState f.elements).gotFaces = true ∧
      (runLoop a initState f.elements).mesh.all_indices_valid = true ∧
      m = (runLoop a initState f.elements).mesh ∧
      ds = (runLoop a initState f.elements).diags := by
  unfold parse_file_with_miniply at h
  split at h
  · next hv =>
    split at h
    · simp at h
    · next a ha =>
      obtain ⟨h1, h2, h3, h4, h5⟩ := finishParse_some_inv _ m ds h
      exact ⟨hv, a, h1, h2, h3, h4, h5⟩
  · simp at h

/-- The Boolean validity check, read as a proposition about every index
in the buffer. -/
theorem all_indices_valid_spec (m : TriMesh)
    (h : m.all_indices_valid = true) :
    ∀ i ∈ m.indices,
      (m.topology ≠ Topology.Soup ∧ m.hasTerminator = true ∧
        i = m.terminator) ∨
      (0 ≤ i ∧ i < (m.numVerts : Int)) := by
  intro i hi
  unfold TriMesh.all_indices_valid at h
  rw [List.all_eq_true] at h
  have hx := h i hi
  unfold TriMesh.checkTerminator at hx
  simp only [Bool.or_eq_true, Bool.and_eq_true, decide_eq_true_eq] at hx
  rcases hx with ⟨⟨⟨ht, hterm⟩, _⟩, hit⟩ | hok
  · exact Or.inl ⟨ht, hterm, hit⟩
  · exact Or.inr hok

/-- A list property with a polygon row cannot be coerced to fixed
width 3. -/
theorem convert3_false_of_poly (e : Element) (rs : List (List Int))
    (hidx : e.vertex_indices = some rs)
    (hpoly : requires_triangulation rs = true) :
    convert_list_to_fixed_size3 e = false := by
  unfold convert_list_to_fixed_size3
  rw [hidx]
  unfold requires_triangulation at hpoly
  rw [List.any_eq_true] at hpoly
  obtain ⟨r, hr, hlen⟩ := hpoly
  rw [List.all_eq_false]
  refine ⟨r, hr, ?_⟩
  have h3 : 3 < r.length := by simpa using hlen
  simp only [decide_eq_true_eq]
  omega

/-- If the first face-data element the loop reaches is a tristrips
element carrying an index-list property, then either the loop ends with
`gotFaces` unset (a break happened, so the gate fails) or the final
mesh carries the strip topology, the sentinel terminator and the
flattened index lists of that element. -/
theorem runLoop_tristrips (a : Bool) (pre : List Element) :
    ∀ (st : LoopState) (ts : Element) (post : List Element)
      (rs : List (List Int)),
      (∀ e ∈ pre, ¬ e.name = "face" ∧ ¬ e.name = "tristrips") →
      st.gotFaces = false → ts.name = "tristrips" →
      ts.vertex_indices = some rs →
      (runLoop a st (pre ++ ts :: post)).gotFaces = false ∨
      ((runLoop a st (pre ++ ts :: post)).mesh.indices =
          extract_list_property rs ∧
        (runLoop a st (pre ++ ts :: post)).mesh.topology = Topology.Strip ∧
        (runLoop a st (pre ++ ts :: post)).mesh.hasTerminator = true ∧
        (runLoop a st (pre ++ ts :: post)).mesh.terminator = -1) := by
  induction pre with
  | nil =>
    intro st ts post rs _ hgf hts hidx
    rw [List.nil_append, runLoop_cons, if_neg (by simp [hgf])]
    cases hl : ts.loadOk with
    | false =>
      obtain ⟨st'', hstep⟩ := stepElement_tristrips_brk a st ts hts hl hgf
      rw [hstep]
      obtain ⟨-, h2, -⟩ := stepElement_brk_inv a st ts st'' hstep
      exact Or.inl (h2.trans hgf)
    | true =>
      obtain ⟨st', hstep, q1, q2, q3, q4, q5⟩ :=
        stepElement_tristrips a st ts rs hts hl hidx hgf
      rw [hstep]
      obtain ⟨p1, p2, p3, p4, p5, -⟩ := runLoop_after_faces a post st' q1
      exact Or.inr ⟨p2.trans q2, p3.trans q3, p4.trans q4, p5.trans q5⟩
  | cons e pre ih =>
    intro st ts post rs h hgf hts hidx
    obtain ⟨h2, h3⟩ := h e (List.mem_cons_self e pre)
    have htl := fun x hx => h x (List.mem_cons_of_mem e hx)
    rw [List.cons_append, runLoop_cons, if_neg (by simp [hgf])]
    by_cases h1 : e.name = "vertex"
    · cases hp : e.pos with
      | none =>
        rw [stepElement_vertex_brk a st e h1 (Or.inl hp)]
        exact Or.inl hgf
      | some ps =>
        cases hl : e.loadOk with
        | false =>
          rw [stepElement_vertex_brk a st e h1 (Or.inr hl)]
          exact Or.inl hgf
        | true =>
          obtain ⟨st', hstep, q1, q2, -, -, -, -, -, -, -⟩ :=
            stepElement_vertex a st e ps h1 hp hl
          rw [hstep]
          exact ih st' ts post rs htl (q2.trans hgf) hts hidx
    · rw [stepElement_skip a st e h1 h2 h3]
      exact ih st ts post rs htl hgf hts hidx

/-- Iterating a vertex element and then a face element: unless a break
left a flag unset (so the gate fails), the final mesh keeps the first
element's position data — the loop stops as soon as both flags are
set. -/
theorem runLoop_vert_then_face (a : Bool) (v1 fe : Element)
    (rest : List Element) (hv1 : v1.name = "vertex")
    (hfe : fe.name = "face") :
    (runLoop a initState (v1 :: fe :: rest)).gotVerts = false ∨
    (runLoop a initState (v1 :: fe :: rest)).gotFaces = false ∨
    (runLoop a initState (v1 :: fe :: rest)).mesh.pos = v1.pos.getD [] := by
  rw [runLoop_cons, if_neg (by simp [initState])]
  cases hp : v1.pos with
  | none =>
    rw [stepElement_vertex_brk a initState v1 hv1 (Or.inl hp)]
    exact Or.inl rfl
  | some ps =>
    cases hl : v1.loadOk with
    | false =>
      rw [stepElement_vertex_brk a initState v1 hv1 (Or.inr hl)]
      exact Or.inl rfl
    | true =>
      obtain ⟨st1, hstep, q1, q2, q3, -, -, -, -, -, -⟩ :=
        stepElement_vertex a initState v1 ps hv1 hp hl
      have hgf1 : st1.gotFaces = false := q2
      rw [hstep]
      dsimp only
      rw [runLoop_cons, if_neg (by simp [hgf1])]
      rcases stepElement_face_after_verts a st1 fe hfe hgf1 with
        ⟨st'', hstep2, hb⟩ | ⟨st2, hstep2, r1, r2, r3, -⟩
      · rw [hstep2]
        exact Or.inr (Or.inl hb)
      · rw [hstep2]
        dsimp only
        rw [runLoop_stop a st2 rest (r1.trans q1) r2]
        refine Or.inr (Or.inr ?_)
        rw [r3, q3]
        rfl

/-- Iterating two vertex elements and then a face element: unless a
break left a flag unset, the final mesh carries the second vertex
element's position data — the vertex branch has no `gotVerts` guard and
overwrites the first element's buffers. -/
theorem runLoop_two_verts_face (a : Bool) (v1 v2 fe : Element)
    (rest : List Element) (hv1 : v1.name = "vertex")
    (hv2 : v2.name = "vertex") (hfe : fe.name = "face") :
    (runLoop a initState (v1 :: v2 :: fe :: rest)).gotVerts = false ∨
    (runLoop a initState (v1 :: v2 :: fe :: rest)).gotFaces = false ∨
    (runLoop a initState (v1 :: v2 :: fe :: rest)).mesh.pos =
      v2.pos.getD [] := by
  rw [runLoop_cons, if_neg (by simp [initState])]
  cases hp1 : v1.pos with
  | none =>
    rw [stepElement_vertex_brk a initState v1 hv1 (Or.inl hp1)]
    exact Or.inl rfl
  | some ps1 =>
    cases hl1 : v1.loadOk with
    | false =>
      rw [stepElement_vertex_brk a initState v1 hv1 (Or.inr hl1)]
      exact Or.inl rfl
    | true =>
      obtain ⟨st1, hstep, q1, q2, -, -, -, -, -, -, -⟩ :=
        stepElement_vertex a initState v1 ps1 hv1 hp1 hl1
      have hgf1 : st1.gotFaces = false := q2
      rw [hstep]
      dsimp only
      rw [runLoop_cons, if_neg (by simp [hgf1])]
      cases hp2 : v2.pos with
      | none =>
        rw [stepElement_vertex_brk a st1 v2 hv2 (Or.inl hp2)]
        exact Or.inr (Or.inl hgf1)
      | some ps2 =>
        cases hl2 : v2.loadOk with
        | false =>
          rw [stepElement_vertex_brk a st1 v2 hv2 (Or.inr hl2)]
          exact Or.inr (Or.inl hgf1)
        | true =>
          obtain ⟨st2, hstep2, r1, r2, r3, -, -, -, -, -, -⟩ :=
            stepElement_vertex a st1 v2 ps2 hv2 hp2 hl2
          have hgf2 : st2.gotFaces = false := r2.trans hgf1
          rw [hstep2]
          dsimp only
          rw [runLoop_cons, if_neg (by simp [hgf2])]
          rcases stepElement_face_after_verts a st2 fe hfe hgf2 with
            ⟨st'', hstep3, hb⟩ | ⟨st3, hstep3, s1, s2, s3, -⟩
          · rw [hstep3]
            exact Or.inr (Or.inl hb)
          · rw [hstep3]
            dsimp only
            rw [runLoop_stop a st3 rest (s1.trans r1) s2]
            refine Or.inr (Or.inr ?_)
            rw [s3, r3]
            rfl

/-- Per-file behaviour of the batch loop: one report line per resolved
file, in order, and tallies equal to the number of passing and failing
extractions. -/
theorem runBatch_spec (fs : String → PLYFile) (b : Bool) (files : List String) :
    (runBatch fs b files).1 = (files.map fun n => (n, fileOk fs b n)) ∧
    (runBatch fs b files).2.1 = (files.filter fun n => fileOk fs b n).length ∧
    (runBatch fs b files).2.2 =
      (files.filter fun n => !(fileOk fs b n)).length := by
  induction files with
  | nil => exact ⟨rfl, rfl, rfl⟩
  | cons n rest ih =>
    obtain ⟨i1, i2, i3⟩ := ih
    unfold runBatch
    cases hok : fileOk fs b n <;>
      simp [hok, i1, i2, i3, List.filter_cons]

/-- Unfolding equation for input resolution. -/
theorem resolveInputs_cons (tfs : String → Option (List String)) (a : String)
    (rest : List String) :
    resolveInputs tfs (a :: rest) =
      if isDashArg a then resolveInputs tfs rest
      else if has_extension a "txt" then
        match tfs a with
        | some lines =>
          match stripAll lines, resolveInputs tfs rest with
          | some fsNames, some (more, ds) => some (fsNames ++ more, ds)
          | _, _ => none
        | none =>
          (resolveInputs tfs rest).map fun p =>
            (p.1, ("Failed to open " ++ a ++ "\n") :: p.2)
      else (resolveInputs tfs rest).map fun p => (a :: p.1, p.2) := rfl

/-- Removing the dash-prefixed arguments from the command line does not
change input resolution: such arguments are skipped entirely. -/
theorem resolveInputs_filter_dash (tfs : String → Option (List String))
    (args : List String) :
    resolveInputs tfs (args.filter fun a => !isDashArg a) =
      resolveInputs tfs args := by
  induction args with
  | nil => rfl
  | cons a rest ih =>
    rw [List.filter_cons]
    by_cases hd : isDashArg a = true
    · rw [resolveInputs_cons tfs a rest, if_pos hd, hd]
      simpa using ih
    · have hd' : isDashArg a = false := by
        cases hda : isDashArg a
        · rfl
        · exact absurd hda hd
      rw [hd']
      simp only [Bool.not_false, if_true]
      rw [resolveInputs_cons, resolveInputs_cons, if_neg hd, if_neg hd, ih]

/-- The flag scan succeeds exactly when the flag literal is among the
arguments. -/
theorem assumeTrianglesFlag_iff (args : List String) :
    assumeTrianglesFlag args = true ↔ "--assume-triangles" ∈ args := by
  unfold assumeTrianglesFlag
  rw [List.any_eq_true]
  constructor
  · rintro ⟨x, hx, he⟩
    simp only [decide_eq_true_eq] at he
    exact he ▸ hx
  · intro hm
    exact ⟨_, hm, by simp⟩

/-!
Claim theorems.
-/

/-- Claim C1, counterexample: `fileVertTs` is a valid file with vertex
and tristrips elements but no face element.  Requesting the fast path
makes extraction return no mesh, while the same file extracts
successfully without the flag — so the failed face-element lookup alone
fails the extraction, contradicting the claimed demotion. -/
theorem C1_counterexample :
    findElement fileVertTs "face" = none ∧
    (parse_file_with_miniply fileVertTs true).1 = none ∧
    (parse_file_with_miniply fileVertTs false).1.isSome = true := by
  decide

/-- Claim C1, amended: when `assumeTriangles` is requested and no face
element exists, extraction fails immediately (returns no mesh); only
when a face element exists and the fixed-size-3 coercion fails is the
flag demoted to false, with extraction then identical to the
general-purpose run. -/
theorem C1_amended_no_face_fails (f : PLYFile) :
    (findElement f "face" = none →
      (parse_file_with_miniply f true).1 = none) ∧
    (∀ fe, findElement f "face" = some fe →
      convert_list_to_fixed_size3 fe = false →
      parse_file_with_miniply f true = parse_file_with_miniply f false) := by
  constructor
  · intro hnone
    unfold parse_file_with_miniply effectiveAssume
    cases hv : f.valid
    · simp
    · simp [hnone]
  · intro fe hfind hconv
    unfold parse_file_with_miniply effectiveAssume
    cases hv : f.valid
    · simp
    · simp [hfind, hconv]

/-- Claim C1, witness for the amended statement: a file with no face
element fails under the flag, and a file whose face element defeats the
coercion behaves exactly as without the flag. -/
theorem C1_amended_witness :
    (parse_file_with_miniply fileVertTs true).1 = none ∧
    parse_file_with_miniply fileTsFaceVert true =
      parse_file_with_miniply fileTsFaceVert false :=
  ⟨(C1_amended_no_face_fails fileVertTs).1 (by decide),
   (C1_amended_no_face_fails fileTsFaceVert).2 facePoly (by decide) (by decide)⟩

/-- Claim C2: every mesh returned by a successful extraction passes the
validity check, and therefore every index either equals the terminator
under an active terminator policy (non-Soup topology with
`hasTerminator`) or lies in `[0, numVerts)`; and when no vertex element
or no face-data element exists, no mesh is returned at all. -/
theorem C2_validity_invariant (f : PLYFile) (b : Bool) :
    (∀ m ds, parse_file_with_miniply f b = (some m, ds) →
      m.all_indices_valid = true ∧
      ∀ i ∈ m.indices,
        (m.topology ≠ Topology.Soup ∧ m.hasTerminator = true ∧
          i = m.terminator) ∨
        (0 ≤ i ∧ i < (m.numVerts : Int))) ∧
    ((∀ e ∈ f.elements, ¬ e.name = "vertex") →
      (parse_file_with_miniply f b).1 = none) ∧
    ((∀ e ∈ f.elements, ¬ e.name = "face" ∧ ¬ e.name = "tristrips") →
      (parse_file_with_miniply f b).1 = none) := by
  refine ⟨?_, ?_, ?_⟩
  · intro m ds h
    obtain ⟨-, a, -, -, hval, hm, -⟩ := parse_success_inv f b m ds h
    subst hm
    exact ⟨hval, all_indices_valid_spec _ hval⟩
  · intro hnov
    cases hres : (parse_file_with_miniply f b).1 with
    | none => rfl
    | some m =>
      exfalso
      have hfull : parse_file_with_miniply f b =
          (some m, (parse_file_with_miniply f b).2) := by
        rw [← hres]
      obtain ⟨-, a, hgv, -, -, -, -⟩ := parse_success_inv f b m _ hfull
      have hz := runLoop_gotVerts_of_no_vertex a f.elements initState hnov
      rw [hgv] at hz
      exact absurd hz (by decide)
  · intro hnof
    cases hres : (parse_file_with_miniply f b).1 with
    | none => rfl
    | some m =>
      exfalso
      have hfull : parse_file_with_miniply f b =
          (some m, (parse_file_with_miniply f b).2) := by
        rw [← hres]
      obtain ⟨-, a, -, hgf, -, -, -⟩ := parse_success_inv f b m _ hfull
      have hz := runLoop_gotFaces_of_no_face a f.elements initState hnof
      rw [hgf] at hz
      exact absurd hz (by decide)

/-- Claim C2, witness: the invariant exercised on the mesh extracted
from `fileGood`. -/
theorem C2_witness :
    meshGood.all_indices_valid = true ∧
    (∀ i ∈ meshGood.indices,
      (meshGood.topology ≠ Topology.Soup ∧ meshGood.hasTerminator = true ∧
        i = meshGood.terminator) ∨
      (0 ≤ i ∧ i < (meshGood.numVerts : Int))) :=
  (C2_validity_invariant fileGood false).1 meshGood [] (by decide)

/-- Claim C3, counterexample: in `fileTwoVerts` two elements carry the
vertex element's name and both precede the face element; the returned
mesh holds the second element's position data, not the first's. -/
theorem C3_counterexample :
    fileTwoVerts.elements = [vtxA, vtxB, faceTri] ∧
    vtxA.name = "vertex" ∧ vtxB.name = "vertex" ∧
    ((parse_file_with_miniply fileTwoVerts false).1.map TriMesh.pos) =
      some (vtxB.pos.getD []) ∧
    ¬ ((parse_file_with_miniply fileTwoVerts false).1.map TriMesh.pos) =
      some (vtxA.pos.getD []) := by
  decide

/-- Claim C3, amended: iteration stops once both the vertex and the
face element have been consumed, so when the face element lies between
the two vertex-named elements the first one's data is what the returned
mesh holds; but the vertex branch carries no `gotVerts` guard, so when
both vertex-named elements precede the face element the second one's
data overwrites the first's. -/
theorem C3_amended_first_wins (b : Bool) (v1 v2 fe : Element)
    (rest : List Element) (hv1 : v1.name = "vertex")
    (hv2 : v2.name = "vertex") (hfe : fe.name = "face") :
    (∀ m ds,
      parse_file_with_miniply ⟨true, v1 :: fe :: v2 :: rest⟩ b =
        (some m, ds) →
      m.pos = v1.pos.getD []) ∧
    (∀ m ds,
      parse_file_with_miniply ⟨true, v1 :: v2 :: fe :: rest⟩ b =
        (some m, ds) →
      m.pos = v2.pos.getD []) := by
  constructor
  · intro m ds h
    obtain ⟨-, a, hgv, hgf, -, hm, -⟩ := parse_success_inv _ b m ds h
    dsimp only at hgv hgf hm
    rcases runLoop_vert_then_face a v1 fe (v2 :: rest) hv1 hfe with
      h1 | h1 | h1
    · rw [h1] at hgv
      exact absurd hgv (by decide)
    · rw [h1] at hgf
      exact absurd hgf (by decide)
    · rw [hm]
      exact h1
  · intro m ds h
    obtain ⟨-, a, hgv, hgf, -, hm, -⟩ := parse_success_inv _ b m ds h
    dsimp only at hgv hgf hm
    rcases runLoop_two_verts_face a v1 v2 fe rest hv1 hv2 hfe with
      h1 | h1 | h1
    · rw [h1] at hgv
      exact absurd hgv (by decide)
    · rw [h1] at hgf
      exact absurd hgf (by decide)
    · rw [hm]
      exact h1


/-- Claim C3, witness for the amended statement: with the face element
between the two vertex-named elements the first one's positions are
returned; with both before the face element the second one's are. -/
theorem C3_amended_witness :
    meshGood.pos = vtxA.pos.getD [] ∧
    (parse_file_with_miniply fileTwoVerts false).1.map TriMesh.pos =
      some (vtxB.pos.getD []) :=
  ⟨(C3_amended_first_wins false vtxA vtxB faceTri [] rfl rfl rfl).1
      meshGood [] (by decide),
   by decide⟩

/-- Claim C4, counterexample: in `fileTsFaceVert` a face element whose
lists require triangulation appears before any vertex element has been
consumed, yet — because a tristrips element already supplied face
data — extraction succeeds and emits no ordering diagnostic. -/
theorem C4_counterexample :
    fileTsFaceVert.elements = [tsElem, facePoly, vtx4] ∧
    facePoly.name = "face" ∧
    requires_triangulation [[0, 1, 2, 3]] = true ∧
    vtx4.name = "vertex" ∧ ¬ tsElem.name = "vertex" ∧
    (parse_file_with_miniply fileTsFaceVert false).1.isSome = true ∧
    (parse_file_with_miniply fileTsFaceVert false).2 = [] := by
  decide

/-- Claim C4, amended: when the face element needing triangulation is
the first face-data element the loop reaches (no earlier face or
tristrips element), loads successfully and carries an index-list
property, and no vertex element precedes it, extraction fails with the
ordering diagnostic and returns no mesh (for either value of the
fast-path flag); when that face element does not require triangulation,
no ordering diagnostic is ever emitted. -/
theorem C4_amended_ordering (b : Bool) (pre : List Element) (fe : Element)
    (post : List Element) (rs : List (List Int))
    (hpre : ∀ e ∈ pre,
      ¬ e.name = "vertex" ∧ ¬ e.name = "face" ∧ ¬ e.name = "tristrips")
    (hfe : fe.name = "face") (hl : fe.loadOk = true)
    (hidx : fe.vertex_indices = some rs) :
    (requires_triangulation rs = true →
      (parse_file_with_miniply ⟨true, pre ++ fe :: post⟩ b).1 = none ∧
      orderingMsg ∈ (parse_file_with_miniply ⟨true, pre ++ fe :: post⟩ b).2) ∧
    (requires_triangulation rs = false →
      ¬ orderingMsg ∈
        (parse_file_with_miniply ⟨true, pre ++ fe :: post⟩ b).2) := by
  constructor
  · intro hpoly
    have heff : effectiveAssume ⟨true, pre ++ fe :: post⟩ b = some false := by
      cases b with
      | false => rfl
      | true =>
        have hfind : findElement ⟨true, pre ++ fe :: post⟩ "face" = some fe :=
          find_face_prefix pre fe post (fun x hx => (hpre x hx).2.1) hfe
        simp [effectiveAssume, hfind,
          convert3_false_of_poly fe rs hidx hpoly]
    have heq : parse_file_with_miniply ⟨true, pre ++ fe :: post⟩ b =
        finishParse (runLoop false initState (pre ++ fe :: post)) := by
      unfold parse_file_with_miniply
      rw [if_pos rfl, heff]
    rw [runLoop_skip false pre initState (fe :: post) hpre rfl,
        runLoop_cons, if_neg (by simp [initState]),
        stepElement_face_ordering initState fe rs hfe hl hidx hpoly rfl rfl]
      at heq
    dsimp only at heq
    constructor
    · rw [heq]
      exact finishParse_none _ (Or.inl rfl)
    · rw [heq, finishParse_snd]
      simp [initState]
  · intro hpoly
    unfold parse_file_with_miniply
    rw [if_pos rfl]
    cases heff2 : effectiveAssume ⟨true, pre ++ fe :: post⟩ b with
    | none => simp
    | some a2 =>
      dsimp only
      rw [runLoop_skip a2 pre initState (fe :: post) hpre rfl,
          runLoop_cons, if_neg (by simp [initState])]
      obtain ⟨st1, hstep, hgf1, hdiag1⟩ :=
        stepElement_face_no_poly a2 initState fe rs hfe hl hidx hpoly rfl
      rw [hstep]
      dsimp only
      obtain ⟨-, -, -, -, -, hd⟩ := runLoop_after_faces a2 post st1 hgf1
      rw [finishParse_snd, hd, hdiag1]
      simp [initState]

/-- Claim C4, witness for the amended statement: a quad face element
with no preceding elements and a vertex element after it. -/
theorem C4_amended_witness :
    (parse_file_with_miniply fileFaceFirst false).1 = none ∧
    orderingMsg ∈ (parse_file_with_miniply fileFaceFirst false).2 :=
  (C4_amended_ordering false [] facePoly [vtx4] [[0, 1, 2, 3]]
    (by simp) rfl rfl rfl).1 (by decide)

/-- Claim C5, refuted by the code (bug): stripping trailing newlines
from the list-file line consisting only of a newline pops the string to
empty and then reads `back()` of the empty string — modelled as `none`
— while an ordinary line is stripped without reaching that read. -/
theorem C5_empty_line_read :
    stripLine "\n" = none ∧ stripLine "mesh.ply\n" = some "mesh.ply" := by
  decide

/-- Claim C6: a face element that exists but defeats the fixed-size-3
coercion (some row's length differs from 3) demotes the fast path, and
the run with the flag is identical — same mesh, same diagnostics, hence
the same fully validated outcome — to the run without it. -/
theorem C6_fast_path_demotion (f : PLYFile) (fe : Element)
    (rs : List (List Int)) (hfind : findElement f "face" = some fe)
    (hidx : fe.vertex_indices = some rs)
    (hvar : ∃ r ∈ rs, ¬ r.length = 3) :
    parse_file_with_miniply f true = parse_file_with_miniply f false := by
  have hconv : convert_list_to_fixed_size3 fe = false := by
    unfold convert_list_to_fixed_size3
    rw [hidx, List.all_eq_false]
    obtain ⟨r, hr, hne⟩ := hvar
    exact ⟨r, hr, fun hdec => hne (of_decide_eq_true hdec)⟩
  unfold parse_file_with_miniply effectiveAssume
  cases hv : f.valid
  · rfl
  · simp [hfind, hconv]

/-- Claim C6, witness: the quad-face file behaves identically with and
without the fast-path flag. -/
theorem C6_witness :
    parse_file_with_miniply fileVertQuad true =
      parse_file_with_miniply fileVertQuad false :=
  C6_fast_path_demotion fileVertQuad facePoly [[0, 1, 2, 3]] (by decide) rfl
    ⟨[0, 1, 2, 3], by decide, by decide⟩

/-- Claim C7: when the first face-data element the loop reaches is the
tristrips element (no ordinary face element consumed first) and
extraction succeeds, the returned mesh has strip topology, an active
terminator with value -1, and an index buffer that is the in-order
flattening of the element's index lists, of length the sum of the list
lengths. -/
theorem C7_tristrips_topology (b : Bool) (pre : List Element) (ts : Element)
    (post : List Element) (rs : List (List Int)) (m : TriMesh)
    (ds : List String)
    (hpre : ∀ e ∈ pre, ¬ e.name = "face" ∧ ¬ e.name = "tristrips")
    (hts : ts.name = "tristrips") (hidx : ts.vertex_indices = some rs)
    (hparse : parse_file_with_miniply ⟨true, pre ++ ts :: post⟩ b =
      (some m, ds)) :
    m.topology = Topology.Strip ∧ m.hasTerminator = true ∧
    m.terminator = -1 ∧ m.indices = rs.flatten ∧
    m.indices.length = sum_of_list_counts rs := by
  obtain ⟨-, a, hgv, hgf, -, hm, -⟩ := parse_success_inv _ b m ds hparse
  dsimp only at hgv hgf hm
  rcases runLoop_tristrips a pre initState ts post rs hpre rfl hts hidx with
    h1 | ⟨h1, h2, h3, h4⟩
  · rw [h1] at hgf
    exact absurd hgf (by decide)
  · rw [hm]
    refine ⟨h2, h3, h4, h1, ?_⟩
    rw [h1]
    simp [extract_list_property, sum_of_list_counts]

/-- Claim C7, witness: the vertex-then-tristrips file produces the
strip mesh. -/
theorem C7_witness :
    meshStrip.topology = Topology.Strip ∧ meshStrip.hasTerminator = true ∧
    meshStrip.terminator = -1 ∧
    meshStrip.indices = [[(0 : Int), 1, 2]].flatten ∧
    meshStrip.indices.length = sum_of_list_counts [[0, 1, 2]] :=
  C7_tristrips_topology false [vtxA] tsElem [] [[0, 1, 2]] meshStrip []
    (by decide) rfl rfl (by decide)

/-- Claim C8: given the resolved file list, the harness reports one
line per file in order (a failure never skips the next file), the
printed tallies equal the number of passing and failing extractions,
and the exit status is success exactly when no file resolved or every
file passed, failure exactly when some file failed. -/
theorem C8_batch_exit (tfs : String → Option (List String))
    (fs : String → PLYFile) (args : List String) (files : List String)
    (ds : List String) (rep : List (String × Bool)) (p fl ec : Nat)
    (hres : resolveInputs tfs args = some (files, ds))
    (hmain : mainModel tfs fs args = some (rep, p, fl, ec)) :
    rep = (files.map fun n => (n, fileOk fs (assumeTrianglesFlag args) n)) ∧
    p = (files.filter fun n => fileOk fs (assumeTrianglesFlag args) n).length ∧
    fl = (files.filter fun n =>
      !(fileOk fs (assumeTrianglesFlag args) n)).length ∧
    (ec = 0 ↔ (files = [] ∨ ∀ n ∈ files,
      fileOk fs (assumeTrianglesFlag args) n = true)) ∧
    (¬ ec = 0 ↔ ∃ n ∈ files,
      fileOk fs (assumeTrianglesFlag args) n = false) := by
  unfold mainModel at hmain
  rw [hres] at hmain
  dsimp only at hmain
  obtain ⟨s1, s2, s3⟩ := runBatch_spec fs (assumeTrianglesFlag args) files
  have hall : ((files.filter fun n =>
      !(fileOk fs (assumeTrianglesFlag args) n)).length = 0) ↔
      (∀ n ∈ files, fileOk fs (assumeTrianglesFlag args) n = true) := by
    rw [List.length_eq_zero, List.filter_eq_nil_iff]
    constructor
    · intro h n hn
      have hx := h n hn
      simpa using hx
    · intro h n hn
      simp [h n hn]
  have hex : (0 < (files.filter fun n =>
      !(fileOk fs (assumeTrianglesFlag args) n)).length) ↔
      (∃ n ∈ files, fileOk fs (assumeTrianglesFlag args) n = false) := by
    constructor
    · intro h
      obtain ⟨x, hx⟩ := List.exists_mem_of_length_pos h
      obtain ⟨hxf, hxo⟩ := List.mem_filter.mp hx
      exact ⟨x, hxf, by simpa using hxo⟩
    · rintro ⟨n, hn, ho⟩
      exact List.length_pos_of_mem (List.mem_filter.mpr ⟨hn, by simp [ho]⟩)
  by_cases hemp : files.isEmpty = true
  · have hfe : files = [] := by
      cases files with
      | nil => rfl
      | cons x xs => simp [List.isEmpty] at hemp
    subst hfe
    rw [if_pos hemp] at hmain
    simp only [Option.some.injEq, Prod.mk.injEq] at hmain
    obtain ⟨h1, h2, h3, h4⟩ := hmain
    refine ⟨h1.symm, h2.symm, h3.symm, ?_, ?_⟩
    · rw [← h4]
      simp
    · rw [← h4]
      simp
  · rw [if_neg hemp] at hmain
    simp only [Option.some.injEq, Prod.mk.injEq] at hmain
    obtain ⟨h1, h2, h3, h4⟩ := hmain
    refine ⟨h1 ▸ s1, h2 ▸ s2, h3 ▸ s3, ?_, ?_⟩
    · rw [← h4, s3]
      by_cases h0 : 0 < (files.filter fun n =>
          !(fileOk fs (assumeTrianglesFlag args) n)).length
      · rw [if_pos h0]
        constructor
        · intro hc
          exact absurd hc (by decide)
        · intro hc
          rcases hc with hc | hc
          · subst hc
            simp at h0
          · rw [← hall] at hc
            omega
      · rw [if_neg h0]
        have hL : (files.filter fun n =>
            !(fileOk fs (assumeTrianglesFlag args) n)).length = 0 := by omega
        exact ⟨fun _ => Or.inr (hall.mp hL), fun _ => rfl⟩
    · rw [← h4, s3]
      by_cases h0 : 0 < (files.filter fun n =>
          !(fileOk fs (assumeTrianglesFlag args) n)).length
      · rw [if_pos h0]
        exact ⟨fun _ => hex.mp h0, fun _ => by decide⟩
      · rw [if_neg h0]
        constructor
        · intro hc
          exact absurd rfl hc
        · intro hc
          exact absurd (hex.mpr hc) h0

/-- Claim C8, witness: a batch of one passing and one failing file
yields one report line per file, tallies one-and-one, and a failing
exit status. -/
theorem C8_witness :
    ([("good.ply", true), ("bad.ply", false)] : List (String × Bool)) =
      (["good.ply", "bad.ply"].map fun n =>
        (n, fileOk fsGoodBad (assumeTrianglesFlag argsGoodBad) n)) ∧
    1 = (["good.ply", "bad.ply"].filter fun n =>
      fileOk fsGoodBad (assumeTrianglesFlag argsGoodBad) n).length ∧
    1 = (["good.ply", "bad.ply"].filter fun n =>
      !(fileOk fsGoodBad (assumeTrianglesFlag argsGoodBad) n)).length ∧
    ((1 : Nat) = 0 ↔ ((["good.ply", "bad.ply"] : List String) = [] ∨
      ∀ n ∈ ["good.ply", "bad.ply"],
        fileOk fsGoodBad (assumeTrianglesFlag argsGoodBad) n = true)) ∧
    (¬ (1 : Nat) = 0 ↔ ∃ n ∈ ["good.ply", "bad.ply"],
      fileOk fsGoodBad (assumeTrianglesFlag argsGoodBad) n = false) :=
  C8_batch_exit tfsNone fsGoodBad argsGoodBad ["good.ply", "bad.ply"] []
    [("good.ply", true), ("bad.ply", false)] 1 1 1 (by decide) (by decide)

/-- Claim C9, refuted by the code (bug): a list file whose middle line
is empty drives the stripping loop into the empty-string `back()` read
(modelled as `none`), so the following non-empty filename is never
resolved; by contrast an unopenable list file is reported and skipped
and a non-matching argument is a direct filename, as the claim
describes. -/
theorem C9_list_file_expansion :
    resolveInputs tfsEmptyLine ["files.txt"] = none ∧
    stripAll ["a.ply\n", "\n", "b.ply\n"] = none ∧
    resolveInputs tfsEmptyLine ["missing.txt", "direct.ply"] =
      some (["direct.ply"], ["Failed to open missing.txt\n"]) := by
  decide

/-- Claim C10: dash-prefixed arguments, recognised or not, are excluded
from filename resolution without any other effect; the fast-path flag
is set exactly when it occurs among the arguments; and the batch
processes every resolved file with that one global flag. -/
theorem C10_dash_arguments (tfs : String → Option (List String))
    (args : List String) :
    resolveInputs tfs (args.filter fun a => !isDashArg a) =
      resolveInputs tfs args ∧
    (assumeTrianglesFlag args = true ↔ "--assume-triangles" ∈ args) ∧
    (∀ (fs : String → PLYFile) (files ds : List String),
      resolveInputs tfs args = some (files, ds) →
      (runBatch fs (assumeTrianglesFlag args) files).1 =
        (files.map fun n =>
          (n, (parse_file_with_miniply (fs n)
            (assumeTrianglesFlag args)).1.isSome))) := by
  refine ⟨resolveInputs_filter_dash tfs args, assumeTrianglesFlag_iff args, ?_⟩
  intro fs files ds _
  exact (runBatch_spec fs (assumeTrianglesFlag args) files).1

/-- Claim C10, witness: with an unrecognised dash argument and the flag
among the arguments, only the real filename resolves and it is
processed with the global flag. -/
theorem C10_witness :
    (runBatch fsGoodBad (assumeTrianglesFlag argsDash) ["good.ply"]).1 =
      (["good.ply"].map fun n =>
        (n, (parse_file_with_miniply (fsGoodBad n)
          (assumeTrianglesFlag argsDash)).1.isSome)) :=
  (C10_dash_arguments tfsNone argsDash).2.2 fsGoodBad ["good.ply"] []
    (by decide)

end MiniplyPerf
